import Mathlib

/-!
Shallow embedding of the chip8 emulator sources (`src/cpu.rs`, `src/input.rs`).

Conventions of the embedding:
* Machine integers (`u8`, `u16`) are `Nat` with explicit wrap (`% 256`,
  `% 65536`) exactly where the Rust operation wraps.
* Rust panics (array index out of bounds, debug-mode arithmetic
  overflow/underflow) are modelled by `Option`: `none` is a panic.
* The fixed arrays (memory, registers, stack, framebuffer, keypad) are total
  functions from `Nat`; every Rust indexing that can be out of range is
  guarded by the same bound check the Rust array performs, and a failed
  check yields `none`.  Register indexing by an opcode nibble needs no guard:
  the decoder masks every nibble to four bits, so the index is below 16.
* `rand::random::<u8>()` in `_cxnn` is modelled by an explicit `rnd`
  parameter, reduced `% 256`.
* The `println!` beep in `update_timer` is modelled as a returned `Bool`.
-/

def SCREEN_WIDTH : Nat := 640

def SCREEN_HEIGHT : Nat := 320

def MEMORY_SIZE : Nat := 4096

def REGISTER_SIZE : Nat := 16

def STACK_SIZE : Nat := 16

def KEYPAD_SIZE : Nat := 16

/-- Pointwise update of a function-modelled array. -/
def updf {α : Type} (f : Nat → α) (i : Nat) (v : α) : Nat → α :=
  fun j => if j = i then v else f j

/-- Pointwise update of the two-dimensional framebuffer. -/
def updg (g : Nat → Nat → Nat) (y x v : Nat) : Nat → Nat → Nat :=
  fun Y X => if Y = y ∧ X = x then v else g Y X

/-- The chip8 font set copied into the low 80 bytes of memory. -/
def FONTSET : List Nat :=
  [0xF0, 0x90, 0x90, 0x90, 0xF0,
   0x20, 0x60, 0x20, 0x20, 0x70,
   0xF0, 0x10, 0xF0, 0x80, 0xF0,
   0xF0, 0x10, 0xF0, 0x10, 0xF0,
   0x90, 0x90, 0xF0, 0x10, 0x10,
   0xF0, 0x80, 0xF0, 0x10, 0xF0,
   0xF0, 0x80, 0xF0, 0x90, 0xF0,
   0xF0, 0x10, 0x20, 0x40, 0x40,
   0xF0, 0x90, 0xF0, 0x90, 0xF0,
   0xF0, 0x90, 0xF0, 0x10, 0xF0,
   0xF0, 0x90, 0xF0, 0x90, 0x90,
   0xE0, 0x90, 0xE0, 0x90, 0xE0,
   0xF0, 0x80, 0x80, 0x80, 0xF0,
   0xE0, 0x90, 0x90, 0x90, 0xE0,
   0xF0, 0x80, 0xF0, 0x80, 0xF0,
   0xF0, 0x80, 0xF0, 0x80, 0x80]

/-- The decoded two-byte operation code, split into four 4-bit fields. -/
structure OpCode where
  first : Nat
  second : Nat
  third : Nat
  fourth : Nat

/-- Merge the four fields back into one 16-bit opcode number.  The first
field is shifted to the top nibble of a `u16`, hence the `% 65536`. -/
def OpCode.merged_opcode (o : OpCode) : Nat :=
  ((o.first <<< 12) % 65536) ||| (o.second <<< 8) ||| (o.third <<< 4) ||| o.fourth

/-- The whole machine state of `struct Emulator`. -/
structure Emulator where
  opcode : OpCode
  memory : Nat → Nat
  registers : Nat → Nat
  index_register : Nat
  program_counter : Nat
  gfx : Nat → Nat → Nat
  delay_timer : Nat
  sound_timer : Nat
  stack : Nat → Nat
  stack_pointer : Nat
  keypad : Nat → Bool

/-- `Emulator::new`: zeroed state, font set in the first 80 bytes,
program counter at 0x200. -/
def Emulator.new : Emulator where
  opcode := { first := 0, second := 0, third := 0, fourth := 0 }
  memory := fun i => FONTSET.getD i 0
  registers := fun _ => 0
  index_register := 0
  program_counter := 0x200
  gfx := fun _ _ => 0
  delay_timer := 0
  sound_timer := 0
  stack := fun _ => 0
  stack_pointer := 0
  keypad := fun _ => false

/-- The byte-copying loop of `load_rom`: each byte is written to
`memory[program_counter + index]`; the Rust code performs no bound check, so
an image running past the end of memory hits the array's own index panic
(`none`) after having already written the in-range prefix. -/
def load_bytes (mem : Nat → Nat) (off : Nat) : List Nat → Option (Nat → Nat)
  | [] => some mem
  | v :: rest =>
    if off < MEMORY_SIZE then load_bytes (updf mem off v) (off + 1) rest else none

/-- `load_rom`, abstracted over the byte sequence read from the file (the
file-system part of `load_rom` is outside the machine model). -/
def load_rom (em : Emulator) (bytes : List Nat) : Option Emulator :=
  (load_bytes em.memory em.program_counter bytes).map (fun m => { em with memory := m })

/-- Register Vx selected by the second nibble. -/
def get_register_vx (em : Emulator) : Nat :=
  em.registers em.opcode.second

/-- Register Vy selected by the third nibble. -/
def get_register_vy (em : Emulator) : Nat :=
  em.registers em.opcode.third

/-- Low nibble of the opcode. -/
def get_n (em : Emulator) : Nat :=
  em.opcode.merged_opcode &&& 0x000F

/-- Low byte of the opcode. -/
def get_nn (em : Emulator) : Nat :=
  em.opcode.merged_opcode &&& 0x00FF

/-- Low 12 bits of the opcode. -/
def get_nnn (em : Emulator) : Nat :=
  em.opcode.merged_opcode &&& 0x0FFF

/-- Advance the program counter over one instruction. -/
def skip_next_instruction (em : Emulator) : Emulator :=
  { em with program_counter := em.program_counter + 2 }

/-- 0NNN: no operation. -/
def _0nnn (em : Emulator) : Emulator :=
  em

/-- 00E0: clear the framebuffer. -/
def _00e0 (em : Emulator) : Emulator :=
  { em with gfx := fun _ _ => 0 }

/-- 00EE: pop the stored frame and set `pc = stack[sp] + 2`.  The `usize`
decrement underflows (debug panic) at `sp = 0`, and the stack access itself
is bound checked; the `u16` addition `stack[sp] + 2` is overflow checked. -/
def _00ee (em : Emulator) : Option Emulator :=
  if em.stack_pointer = 0 then none
  else
    let sp := em.stack_pointer - 1
    if sp < STACK_SIZE then
      if em.stack sp + 2 < 65536 then
        some { em with stack_pointer := sp, program_counter := em.stack sp + 2 }
      else none
    else none

/-- 1NNN: jump. -/
def _1nnn (em : Emulator) : Emulator :=
  { em with program_counter := get_nnn em }

/-- 2NNN: store `pc - 2` at `stack[sp]`, bump `sp`, jump to NNN.  The `u16`
subtraction underflows below `pc = 2` and the stack store is bound checked. -/
def _2nnn (em : Emulator) : Option Emulator :=
  if em.program_counter < 2 then none
  else if em.stack_pointer < STACK_SIZE then
    some { em with
      stack := updf em.stack em.stack_pointer (em.program_counter - 2),
      stack_pointer := em.stack_pointer + 1,
      program_counter := get_nnn em }
  else none

/-- 3XNN: skip if Vx = NN. -/
def _3xnn (em : Emulator) : Emulator :=
  if get_register_vx em = get_nn em then skip_next_instruction em else em

/-- 4XNN: skip if Vx ≠ NN. -/
def _4xnn (em : Emulator) : Emulator :=
  if get_register_vx em ≠ get_nn em then skip_next_instruction em else em

/-- 5XY0 as the source writes it: skip when Vx ≠ Vy. -/
def _5xy0 (em : Emulator) : Emulator :=
  if get_register_vx em ≠ get_register_vy em then skip_next_instruction em else em

/-- 6XNN: Vx = NN. -/
def _6xnn (em : Emulator) : Emulator :=
  { em with registers := updf em.registers em.opcode.second (get_nn em) }

/-- 7XNN: Vx += NN with the `u8` debug-mode overflow panic. -/
def _7xnn (em : Emulator) : Option Emulator :=
  if get_register_vx em + get_nn em < 256 then
    some { em with
      registers := updf em.registers em.opcode.second (get_register_vx em + get_nn em) }
  else none

/-- 8XY0: Vx = Vy. -/
def _8xy0 (em : Emulator) : Emulator :=
  { em with registers := updf em.registers em.opcode.second (get_register_vy em) }

/-- 8XY1: Vx |= Vy. -/
def _8xy1 (em : Emulator) : Emulator :=
  let v := get_register_vx em ||| get_register_vy em
  { em with registers := updf em.registers em.opcode.second v }

/-- 8XY2: Vx &= Vy. -/
def _8xy2 (em : Emulator) : Emulator :=
  let v := get_register_vx em &&& get_register_vy em
  { em with registers := updf em.registers em.opcode.second v }

/-- 8XY3: Vx ^= Vy. -/
def _8xy3 (em : Emulator) : Emulator :=
  let v := get_register_vx em ^^^ get_register_vy em
  { em with registers := updf em.registers em.opcode.second v }

/-- 8XY4: `overflowing_add`, flag written to VF first, then the wrapped sum
to Vx (so with x = 0xF the sum overwrites the flag). -/
def _8xy4 (em : Emulator) : Emulator :=
  let a := get_register_vx em
  let b := get_register_vy em
  let r1 := updf em.registers 0xF (if 255 < a + b then 1 else 0)
  { em with registers := updf r1 em.opcode.second ((a + b) % 256) }

/-- 8XY5: `overflowing_sub`, flag 0 on borrow, then the wrapped difference. -/
def _8xy5 (em : Emulator) : Emulator :=
  let a := get_register_vx em
  let b := get_register_vy em
  let r1 := updf em.registers 0xF (if a < b then 0 else 1)
  { em with registers := updf r1 em.opcode.second ((a + 256 - b) % 256) }

/-- 8XY6: VF = Vx & 1, then Vx is shifted right in place (the shift reads
the register again, after the flag write). -/
def _8xy6 (em : Emulator) : Emulator :=
  let vx := get_register_vx em
  let r1 := updf em.registers 0xF (vx &&& 0x1)
  { em with registers := updf r1 em.opcode.second (r1 em.opcode.second >>> 1) }

/-- 8XY7: Vx = Vy - Vx via `overflowing_sub`, flag 0 on borrow. -/
def _8xy7 (em : Emulator) : Emulator :=
  let a := get_register_vx em
  let b := get_register_vy em
  let r1 := updf em.registers 0xF (if b < a then 0 else 1)
  { em with registers := updf r1 em.opcode.second ((b + 256 - a) % 256) }

/-- 8XYE: VF = Vx & 0x80 (raw, not normalised), then Vx is shifted left in
place with `u8` wrap. -/
def _8xye (em : Emulator) : Emulator :=
  let vx := get_register_vx em
  let r1 := updf em.registers 0xF (vx &&& 0x80)
  { em with registers := updf r1 em.opcode.second ((r1 em.opcode.second <<< 1) % 256) }

/-- 9XY0: skip if Vx ≠ Vy. -/
def _9xy0 (em : Emulator) : Emulator :=
  if get_register_vx em ≠ get_register_vy em then skip_next_instruction em else em

/-- ANNN: index register = NNN. -/
def _annn (em : Emulator) : Emulator :=
  { em with index_register := get_nnn em }

/-- BNNN: pc = V0 + NNN (the sum is at most 255 + 4095, no `u16` wrap). -/
def _bnnn (em : Emulator) : Emulator :=
  { em with program_counter := em.registers 0 + get_nnn em }

/-- CXNN: Vx = random byte & NN. -/
def _cxnn (em : Emulator) (rnd : Nat) : Emulator :=
  { em with registers := updf em.registers em.opcode.second ((rnd % 256) &&& get_nn em) }

/-- One iteration of the inner pixel loop of DXYN: bit `i` of the sprite
row; on a set bit the collision flag is raised if the cell is lit, then the
cell is XOR-toggled. -/
def dxynBit (vx y row : Nat) (st : (Nat → Nat → Nat) × (Nat → Nat)) (i : Nat) :
    (Nat → Nat → Nat) × (Nat → Nat) :=
  let x := (vx + i) % SCREEN_WIDTH
  if row &&& (0x80 >>> i) ≠ 0 then
    (updg st.1 y x (st.1 y x ^^^ 0x1),
     if st.1 y x = 0x1 then updf st.2 0xF 1 else st.2)
  else st

/-- The eight-bit row loop of DXYN. -/
def dxynRow (vx y row : Nat) (st : (Nat → Nat → Nat) × (Nat → Nat)) :
    (Nat → Nat → Nat) × (Nat → Nat) :=
  (List.range 8).foldl (dxynBit vx y row) st

/-- The outer row loop of DXYN, `j` counting the sprite row. -/
def dxynRows (vx vy : Nat) :
    List Nat → Nat → ((Nat → Nat → Nat) × (Nat → Nat)) → ((Nat → Nat → Nat) × (Nat → Nat))
  | [], _, st => st
  | row :: rest, j, st =>
    dxynRows vx vy rest (j + 1) (dxynRow vx ((vy + j) % SCREEN_HEIGHT) row st)

/-- DXYN: draw the N-byte sprite at `memory[I..I+N]` at (Vx, Vy).  Vx and Vy
are read before VF is reset; the slice `memory[I..I+N]` is bound checked
(`none` past the end of memory). -/
def _dxyn (em : Emulator) : Option Emulator :=
  let vx := get_register_vx em
  let vy := get_register_vy em
  let n := get_n em
  if em.index_register + n ≤ MEMORY_SIZE then
    let sprite := (List.range n).map (fun j => em.memory (em.index_register + j))
    let st := dxynRows vx vy sprite 0 (em.gfx, updf em.registers 0xF 0)
    some { em with gfx := st.1, registers := st.2 }
  else none

/-- EX9E: both branches advance the program counter by 2; the keypad access
`keypad[Vx]` is bound checked against the register value. -/
def _ex9e (em : Emulator) : Option Emulator :=
  if get_register_vx em < KEYPAD_SIZE then
    if em.keypad (get_register_vx em) then some (skip_next_instruction em)
    else some { em with program_counter := em.program_counter + 2 }
  else none

/-- EXA1: both branches advance the program counter by 2; the keypad access
is bound checked against the register value. -/
def _exa1 (em : Emulator) : Option Emulator :=
  if get_register_vx em < KEYPAD_SIZE then
    if ¬ em.keypad (get_register_vx em) then some (skip_next_instruction em)
    else some { em with program_counter := em.program_counter + 2 }
  else none

/-- FX07: Vx = delay timer. -/
def _fx07 (em : Emulator) : Emulator :=
  { em with registers := updf em.registers em.opcode.second em.delay_timer }

/-- FX0A: step the program counter back by 2 (underflow checked), then, if
`keypad[Vx]` (bound checked) is pressed, store Vx into Vx and re-advance. -/
def _fx0a (em : Emulator) : Option Emulator :=
  if em.program_counter < 2 then none
  else
    let em1 := { em with program_counter := em.program_counter - 2 }
    if get_register_vx em1 < KEYPAD_SIZE then
      if em1.keypad (get_register_vx em1) then
        some { em1 with
          registers := updf em1.registers em1.opcode.second (get_register_vx em1),
          program_counter := em1.program_counter + 2 }
      else some em1
    else none

/-- FX15: delay timer = Vx. -/
def _fx15 (em : Emulator) : Emulator :=
  { em with delay_timer := get_register_vx em }

/-- FX18: sound timer = Vx. -/
def _fx18 (em : Emulator) : Emulator :=
  { em with sound_timer := get_register_vx em }

/-- FX1E: index register += Vx with the `u16` debug-mode overflow panic. -/
def _fx1e (em : Emulator) : Option Emulator :=
  if em.index_register + get_register_vx em < 65536 then
    some { em with index_register := em.index_register + get_register_vx em }
  else none

/-- FX29: index register = Vx * 5 (at most 1275, no `u16` wrap). -/
def _fx29 (em : Emulator) : Emulator :=
  { em with index_register := get_register_vx em * 5 }

/-- FX33: binary-coded decimal of Vx at `memory[I..I+2]`, bound checked. -/
def _fx33 (em : Emulator) : Option Emulator :=
  let vx := get_register_vx em
  if em.index_register + 2 < MEMORY_SIZE then
    let m1 := updf em.memory em.index_register (vx / 100)
    let m2 := updf m1 (em.index_register + 1) (vx / 10 % 10)
    let m3 := updf m2 (em.index_register + 2) (vx % 10)
    some { em with memory := m3 }
  else none

/-- FX55: dump V0..Vx to memory at I, bound checked at the last index. -/
def _fx55 (em : Emulator) : Option Emulator :=
  if em.index_register + em.opcode.second < MEMORY_SIZE then
    let m := (List.range (em.opcode.second + 1)).foldl
      (fun m i => updf m (em.index_register + i) (em.registers i)) em.memory
    some { em with memory := m }
  else none

/-- FX65: load V0..Vx from memory at I, bound checked at the last index. -/
def _fx65 (em : Emulator) : Option Emulator :=
  if em.index_register + em.opcode.second < MEMORY_SIZE then
    let r := (List.range (em.opcode.second + 1)).foldl
      (fun r i => updf r i (em.memory (em.index_register + i))) em.registers
    some { em with registers := r }
  else none

/-- `fetch_opcode`: read the big-endian two-byte instruction at `pc` (both
byte reads bound checked), split it into nibbles, advance `pc` by 2. -/
def fetch_opcode (em : Emulator) : Option Emulator :=
  if em.program_counter + 1 < MEMORY_SIZE then
    let opcode := (em.memory em.program_counter <<< 8) ||| em.memory (em.program_counter + 1)
    some { em with
      opcode := {
        first := (opcode &&& 0xF000) >>> 12,
        second := (opcode &&& 0x0F00) >>> 8,
        third := (opcode &&& 0x00F0) >>> 4,
        fourth := opcode &&& 0x000F },
      program_counter := em.program_counter + 2 }
  else none

/-- `process_opcode`: advance `pc` by 2 a second time, then dispatch on the
four nibbles.  The source is one flat match on the nibble tuple; it is
grouped here by the first nibble (each group keeping the source's arm
order, first match wins), which dispatches identically. -/
def process_opcode (em0 : Emulator) (rnd : Nat) : Option Emulator :=
  let em := { em0 with program_counter := em0.program_counter + 2 }
  match em.opcode.first with
  | 0 =>
    match em.opcode.second, em.opcode.third, em.opcode.fourth with
    | 0, 0xE, 0 => some (_00e0 em)
    | 0, 0xE, 0xE => _00ee em
    | _, _, _ => some (_0nnn em)
  | 1 => some (_1nnn em)
  | 2 => _2nnn em
  | 3 => some (_3xnn em)
  | 4 => some (_4xnn em)
  | 5 =>
    match em.opcode.fourth with
    | 0 => some (_5xy0 em)
    | _ => some em
  | 6 => some (_6xnn em)
  | 7 => _7xnn em
  | 8 =>
    match em.opcode.fourth with
    | 0 => some (_8xy0 em)
    | 1 => some (_8xy1 em)
    | 2 => some (_8xy2 em)
    | 3 => some (_8xy3 em)
    | 4 => some (_8xy4 em)
    | 5 => some (_8xy5 em)
    | 6 => some (_8xy6 em)
    | 7 => some (_8xy7 em)
    | 0xE => some (_8xye em)
    | _ => some em
  | 9 =>
    match em.opcode.fourth with
    | 0 => some (_9xy0 em)
    | _ => some em
  | 0xA => some (_annn em)
  | 0xB => some (_bnnn em)
  | 0xC => some (_cxnn em rnd)
  | 0xD => _dxyn em
  | 0xE =>
    match em.opcode.third, em.opcode.fourth with
    | 9, 0xE => _ex9e em
    | 0xA, 1 => _exa1 em
    | _, _ => some em
  | 0xF =>
    match em.opcode.third, em.opcode.fourth with
    | 0, 7 => some (_fx07 em)
    | 0, 0xA => _fx0a em
    | 1, 5 => some (_fx15 em)
    | 1, 8 => some (_fx18 em)
    | 1, 0xE => _fx1e em
    | 2, 9 => some (_fx29 em)
    | 3, 3 => _fx33 em
    | 5, 5 => _fx55 em
    | 6, 5 => _fx65 em
    | _, _ => some em
  | _ => some em

/-- `update_timer`: decrement each nonzero timer; the returned `Bool` is the
one-shot beep, fired exactly when the sound timer goes from 1 to 0. -/
def update_timer (em : Emulator) : Emulator × Bool :=
  ({ em with
      delay_timer := if 0 < em.delay_timer then em.delay_timer - 1 else em.delay_timer,
      sound_timer := if 0 < em.sound_timer then em.sound_timer - 1 else em.sound_timer },
   decide (0 < em.sound_timer ∧ em.sound_timer = 1))

/-- `emulator_cycle`: fetch, execute, update timers. -/
def emulator_cycle (em : Emulator) (rnd : Nat) : Option (Emulator × Bool) :=
  (fetch_opcode em).bind (fun e1 => (process_opcode e1 rnd).map update_timer)

/-- Key press state from `input.rs`. -/
inductive KeyState where
  | Up
  | Down

/-- The boolean a key state is stored as. -/
def key_value_of : KeyState → Bool
  | KeyState.Up => false
  | KeyState.Down => true

/-- `process_key` from `input.rs`: map a host key symbol onto its keypad
slot; unrecognised symbols fall through to the wildcard arm. -/
def process_key (em : Emulator) (key : Char) (state : KeyState) : Emulator :=
  let key_value := key_value_of state
  match key with
  | '1' => { em with keypad := updf em.keypad 0x1 key_value }
  | '2' => { em with keypad := updf em.keypad 0x2 key_value }
  | '3' => { em with keypad := updf em.keypad 0x3 key_value }
  | '4' => { em with keypad := updf em.keypad 0xC key_value }
  | 'q' => { em with keypad := updf em.keypad 0x4 key_value }
  | 'w' => { em with keypad := updf em.keypad 0x5 key_value }
  | 'e' => { em with keypad := updf em.keypad 0x6 key_value }
  | 'r' => { em with keypad := updf em.keypad 0xD key_value }
  | 'a' => { em with keypad := updf em.keypad 0x7 key_value }
  | 's' => { em with keypad := updf em.keypad 0x8 key_value }
  | 'd' => { em with keypad := updf em.keypad 0x9 key_value }
  | 'f' => { em with keypad := updf em.keypad 0xE key_value }
  | 'z' => { em with keypad := updf em.keypad 0xA key_value }
  | 'x' => { em with keypad := updf em.keypad 0x0 key_value }
  | 'c' => { em with keypad := updf em.keypad 0xB key_value }
  | 'v' => { em with keypad := updf em.keypad 0xF key_value }
  | _ => em

/-- The keypad slot a host symbol is mapped to, `none` for unrecognised
symbols; this transcribes the match table of `process_key` for use in
statements about it. -/
def keypad_index : Char → Option Nat
  | '1' => some 0x1
  | '2' => some 0x2
  | '3' => some 0x3
  | '4' => some 0xC
  | 'q' => some 0x4
  | 'w' => some 0x5
  | 'e' => some 0x6
  | 'r' => some 0xD
  | 'a' => some 0x7
  | 's' => some 0x8
  | 'd' => some 0x9
  | 'f' => some 0xE
  | 'z' => some 0xA
  | 'x' => some 0x0
  | 'c' => some 0xB
  | 'v' => some 0xF
  | _ => none

/-! ### Bit-level decode lemmas

These translate the source's mask-and-shift nibble extraction into
divisions and remainders, for byte values below 256. -/

lemma shiftRight_land (x m k : Nat) : (x &&& m) >>> k = (x >>> k) &&& (m >>> k) := by
  apply Nat.eq_of_testBit_eq
  intro i
  simp [Nat.testBit_shiftRight, Nat.testBit_and]

lemma shiftLeft_lor_eq_add (a b k : Nat) (hb : b < 2 ^ k) :
    (a <<< k) ||| b = a * 2 ^ k + b := by
  rw [Nat.shiftLeft_eq, Nat.mul_comm a (2 ^ k), ← Nat.mul_add_lt_is_or hb]

lemma and_15_eq_mod (x : Nat) : x &&& 15 = x % 16 := by
  have h := Nat.and_pow_two_sub_one_eq_mod x 4
  norm_num at h
  exact h

lemma and_255_eq_mod (x : Nat) : x &&& 255 = x % 256 := by
  have h := Nat.and_pow_two_sub_one_eq_mod x 8
  norm_num at h
  exact h

lemma and_4095_eq_mod (x : Nat) : x &&& 4095 = x % 4096 := by
  have h := Nat.and_pow_two_sub_one_eq_mod x 12
  norm_num at h
  exact h

lemma byte_lor_eq (a b : Nat) (hb : b < 256) : (a <<< 8) ||| b = a * 256 + b := by
  have h256 : (2 : Nat) ^ 8 = 256 := by norm_num
  rw [shiftLeft_lor_eq_add a b 8 (h256.symm ▸ hb), h256]

lemma nib1_eq (a b : Nat) (ha : a < 256) (hb : b < 256) :
    (((a <<< 8) ||| b) &&& 0xF000) >>> 12 = a / 16 := by
  rw [byte_lor_eq a b hb, shiftRight_land]
  have hm : (0xF000 : Nat) >>> 12 = 15 := by decide
  rw [hm, and_15_eq_mod, Nat.shiftRight_eq_div_pow]
  have h2 : (2 : Nat) ^ 12 = 4096 := by norm_num
  rw [h2]
  omega

lemma nib2_eq (a b : Nat) (ha : a < 256) (hb : b < 256) :
    (((a <<< 8) ||| b) &&& 0x0F00) >>> 8 = a % 16 := by
  rw [byte_lor_eq a b hb, shiftRight_land]
  have hm : (0x0F00 : Nat) >>> 8 = 15 := by decide
  rw [hm, and_15_eq_mod, Nat.shiftRight_eq_div_pow]
  have h2 : (2 : Nat) ^ 8 = 256 := by norm_num
  rw [h2]
  omega

lemma nib3_eq (a b : Nat) (ha : a < 256) (hb : b < 256) :
    (((a <<< 8) ||| b) &&& 0x00F0) >>> 4 = b / 16 := by
  rw [byte_lor_eq a b hb, shiftRight_land]
  have hm : (0x00F0 : Nat) >>> 4 = 15 := by decide
  rw [hm, and_15_eq_mod, Nat.shiftRight_eq_div_pow]
  have h2 : (2 : Nat) ^ 4 = 16 := by norm_num
  rw [h2]
  omega

lemma nib4_eq (a b : Nat) (ha : a < 256) (hb : b < 256) :
    ((a <<< 8) ||| b) &&& 0x000F = b % 16 := by
  rw [byte_lor_eq a b hb]
  show (a * 256 + b) &&& 15 = b % 16
  rw [and_15_eq_mod]
  omega

/-- `fetch_opcode` in arithmetic form: the four nibble fields are the base-16
digits of the two fetched bytes. -/
lemma fetch_opcode_eq (em : Emulator) (h : em.program_counter + 1 < 4096)
    (ha : em.memory em.program_counter < 256)
    (hb : em.memory (em.program_counter + 1) < 256) :
    fetch_opcode em = some { em with
      opcode := {
        first := em.memory em.program_counter / 16,
        second := em.memory em.program_counter % 16,
        third := em.memory (em.program_counter + 1) / 16,
        fourth := em.memory (em.program_counter + 1) % 16 },
      program_counter := em.program_counter + 2 } := by
  unfold fetch_opcode
  rw [if_pos (show em.program_counter + 1 < MEMORY_SIZE from h)]
  simp only [nib1_eq _ _ ha hb, nib2_eq _ _ ha hb, nib3_eq _ _ ha hb, nib4_eq _ _ ha hb]

/-- `merged_opcode` in arithmetic form, for nibble-sized fields. -/
lemma merged_opcode_eq (o : OpCode) (hf : o.first < 16) (hs : o.second < 16)
    (ht : o.third < 16) (hu : o.fourth < 16) :
    o.merged_opcode = o.first * 4096 + o.second * 256 + o.third * 16 + o.fourth := by
  have h16 : (2 : Nat) ^ 4 = 16 := by norm_num
  have h4096 : (2 : Nat) ^ 12 = 4096 := by norm_num
  have hA : (o.first <<< 12) % 65536 = o.first <<< 12 := by
    apply Nat.mod_eq_of_lt
    rw [Nat.shiftLeft_eq, h4096]
    omega
  have h1 : (o.third <<< 4) ||| o.fourth = o.third * 16 + o.fourth := by
    rw [shiftLeft_lor_eq_add _ _ 4 (h16.symm ▸ hu), h16]
  have h2 : (o.second <<< 8) ||| (o.third * 16 + o.fourth) =
      o.second * 256 + (o.third * 16 + o.fourth) :=
    byte_lor_eq _ _ (by omega)
  have h3 : (o.first <<< 12) ||| (o.second * 256 + (o.third * 16 + o.fourth)) =
      o.first * 4096 + (o.second * 256 + (o.third * 16 + o.fourth)) := by
    rw [shiftLeft_lor_eq_add _ _ 12 (by rw [h4096]; omega), h4096]
  unfold OpCode.merged_opcode
  rw [hA, Nat.or_assoc, Nat.or_assoc, h1, h2, h3]
  omega

/-- Low 12 bits of a nibble-built opcode. -/
lemma get_nnn_eq (em : Emulator) (hf : em.opcode.first < 16) (hs : em.opcode.second < 16)
    (ht : em.opcode.third < 16) (hu : em.opcode.fourth < 16) :
    get_nnn em = em.opcode.second * 256 + em.opcode.third * 16 + em.opcode.fourth := by
  unfold get_nnn
  rw [merged_opcode_eq em.opcode hf hs ht hu]
  show _ &&& 4095 = _
  rw [and_4095_eq_mod]
  omega

/-- Low byte of a nibble-built opcode. -/
lemma get_nn_eq (em : Emulator) (hf : em.opcode.first < 16) (hs : em.opcode.second < 16)
    (ht : em.opcode.third < 16) (hu : em.opcode.fourth < 16) :
    get_nn em = em.opcode.third * 16 + em.opcode.fourth := by
  unfold get_nn
  rw [merged_opcode_eq em.opcode hf hs ht hu]
  show _ &&& 255 = _
  rw [and_255_eq_mod]
  omega

/-- Low nibble of a nibble-built opcode. -/
lemma get_n_eq (em : Emulator) (hf : em.opcode.first < 16) (hs : em.opcode.second < 16)
    (ht : em.opcode.third < 16) (hu : em.opcode.fourth < 16) :
    get_n em = em.opcode.fourth := by
  unfold get_n
  rw [merged_opcode_eq em.opcode hf hs ht hu]
  show _ &&& 15 = _
  rw [and_15_eq_mod]
  omega

/-- The low nibble extracted by `get_n` is always below 16. -/
lemma get_n_lt (em : Emulator) : get_n em < 16 := by
  unfold get_n
  show _ &&& 15 < 16
  rw [and_15_eq_mod]
  omega

/-! ### The DXYN loop as a list of cell toggles

`runOps` replays the body of the nested draw loop over an explicit list of
framebuffer cells; the lemmas below identify the source's loops with it and
characterise the result cell by cell. -/

/-- Replay the DXYN loop body over a list of cells: each cell raises the
collision flag if lit, then is XOR-toggled. -/
def runOps : List (Nat × Nat) → (Nat → Nat → Nat) → (Nat → Nat) →
    ((Nat → Nat → Nat) × (Nat → Nat))
  | [], g, r => (g, r)
  | p :: ops, g, r =>
    runOps ops (updg g p.1 p.2 (g p.1 p.2 ^^^ 0x1))
      (if g p.1 p.2 = 0x1 then updf r 0xF 1 else r)

/-- The cells toggled by the set bits of one sprite row, restricted to a
given list of bit positions. -/
def bitsOps (vx y row : Nat) (is : List Nat) : List (Nat × Nat) :=
  (is.filter (fun i => row &&& (0x80 >>> i) != 0)).map
    (fun i => (y, (vx + i) % SCREEN_WIDTH))

/-- The cells toggled by one full sprite row. -/
def rowOps (vx y row : Nat) : List (Nat × Nat) :=
  bitsOps vx y row (List.range 8)

/-- The cells toggled by the whole sprite, rows counted from `j`. -/
def spriteOps (vx vy : Nat) : List Nat → Nat → List (Nat × Nat)
  | [], _ => []
  | row :: rest, j => rowOps vx ((vy + j) % SCREEN_HEIGHT) row ++ spriteOps vx vy rest (j + 1)

/-- How often a cell occurs in a toggle list. -/
def countCell (Y X : Nat) : List (Nat × Nat) → Nat
  | [] => 0
  | p :: ops => (if Y = p.1 ∧ X = p.2 then 1 else 0) + countCell Y X ops

lemma foldl_dxynBit (vx y row : Nat) :
    ∀ (is : List Nat) (g : Nat → Nat → Nat) (r : Nat → Nat),
      is.foldl (dxynBit vx y row) (g, r) = runOps (bitsOps vx y row is) g r := by
  intro is
  induction is with
  | nil => intro g r; rfl
  | cons i is ih =>
    intro g r
    by_cases hbit : row &&& (0x80 >>> i) ≠ 0
    · have hb : (row &&& (0x80 >>> i) != 0) = true := by simpa using hbit
      simp only [List.foldl_cons, bitsOps, List.filter_cons, hb, if_pos, List.map_cons]
      rw [show dxynBit vx y row (g, r) i =
        (updg g y ((vx + i) % SCREEN_WIDTH) (g y ((vx + i) % SCREEN_WIDTH) ^^^ 0x1),
         if g y ((vx + i) % SCREEN_WIDTH) = 0x1 then updf r 0xF 1 else r) from by
          simp [dxynBit, hbit]]
      rw [ih]
      rfl
    · have hb : (row &&& (0x80 >>> i) != 0) = false := by simpa using hbit
      simp only [List.foldl_cons, bitsOps, List.filter_cons, hb]
      rw [show dxynBit vx y row (g, r) i = (g, r) from by simp [dxynBit, hbit]]
      exact ih g r

lemma dxynRow_eq_runOps (vx y row : Nat) (g : Nat → Nat → Nat) (r : Nat → Nat) :
    dxynRow vx y row (g, r) = runOps (rowOps vx y row) g r :=
  foldl_dxynBit vx y row (List.range 8) g r

lemma runOps_append :
    ∀ (l1 l2 : List (Nat × Nat)) (g : Nat → Nat → Nat) (r : Nat → Nat),
      runOps (l1 ++ l2) g r = runOps l2 (runOps l1 g r).1 (runOps l1 g r).2 := by
  intro l1
  induction l1 with
  | nil => intro l2 g r; rfl
  | cons p l1 ih =>
    intro l2 g r
    exact ih l2 (updg g p.1 p.2 (g p.1 p.2 ^^^ 0x1))
      (if g p.1 p.2 = 0x1 then updf r 0xF 1 else r)

lemma dxynRows_eq_runOps (vx vy : Nat) :
    ∀ (l : List Nat) (j : Nat) (g : Nat → Nat → Nat) (r : Nat → Nat),
      dxynRows vx vy l j (g, r) = runOps (spriteOps vx vy l j) g r := by
  intro l
  induction l with
  | nil => intro j g r; rfl
  | cons row rest ih =>
    intro j g r
    show dxynRows vx vy rest (j + 1) (dxynRow vx ((vy + j) % SCREEN_HEIGHT) row (g, r)) = _
    rw [dxynRow_eq_runOps]
    have hpair : runOps (rowOps vx ((vy + j) % SCREEN_HEIGHT) row) g r =
        ((runOps (rowOps vx ((vy + j) % SCREEN_HEIGHT) row) g r).1,
         (runOps (rowOps vx ((vy + j) % SCREEN_HEIGHT) row) g r).2) := rfl
    rw [hpair, ih]
    show _ = runOps (rowOps vx ((vy + j) % SCREEN_HEIGHT) row ++ spriteOps vx vy rest (j + 1)) g r
    rw [runOps_append]

lemma runOps_fst_apply :
    ∀ (ops : List (Nat × Nat)) (g : Nat → Nat → Nat) (r : Nat → Nat) (Y X : Nat),
      (runOps ops g r).1 Y X = g Y X ^^^ (countCell Y X ops % 2) := by
  intro ops
  induction ops with
  | nil => intro g r Y X; simp [runOps, countCell]
  | cons p ops ih =>
    intro g r Y X
    show (runOps ops (updg g p.1 p.2 (g p.1 p.2 ^^^ 0x1)) _).1 Y X = _
    rw [ih]
    by_cases hp : Y = p.1 ∧ X = p.2
    · have hg : updg g p.1 p.2 (g p.1 p.2 ^^^ 0x1) Y X = g Y X ^^^ 1 := by
        simp [updg, hp]
      rw [hg]
      show g Y X ^^^ 1 ^^^ (countCell Y X ops % 2) =
        g Y X ^^^ ((if Y = p.1 ∧ X = p.2 then 1 else 0) + countCell Y X ops) % 2
      rw [if_pos hp, Nat.xor_assoc]
      congr 1
      rcases Nat.mod_two_eq_zero_or_one (countCell Y X ops) with h | h
      · rw [h, Nat.xor_zero]
        omega
      · rw [h, Nat.xor_self]
        omega
    · have hg : updg g p.1 p.2 (g p.1 p.2 ^^^ 0x1) Y X = g Y X := by
        simp [updg, hp]
      rw [hg]
      show g Y X ^^^ (countCell Y X ops % 2) =
        g Y X ^^^ ((if Y = p.1 ∧ X = p.2 then 1 else 0) + countCell Y X ops) % 2
      rw [if_neg hp, Nat.zero_add]

lemma runOps_snd_apply_ne :
    ∀ (ops : List (Nat × Nat)) (g : Nat → Nat → Nat) (r : Nat → Nat) (j : Nat),
      j ≠ 0xF → (runOps ops g r).2 j = r j := by
  intro ops
  induction ops with
  | nil => intro g r j _; rfl
  | cons p ops ih =>
    intro g r j hj
    show (runOps ops _ (if g p.1 p.2 = 0x1 then updf r 0xF 1 else r)).2 j = r j
    rw [ih _ _ j hj]
    by_cases h : g p.1 p.2 = 0x1 <;> simp [h, updf, hj]

lemma any_congr_mem {α : Type} (l : List α) (f h : α → Bool)
    (hfh : ∀ a ∈ l, f a = h a) : l.any f = l.any h := by
  induction l with
  | nil => rfl
  | cons a l ih =>
    simp only [List.any_cons, hfh a (by simp)]
    rw [ih (fun b hb => hfh b (by simp [hb]))]

lemma updf_idem (r : Nat → Nat) : updf (updf r 0xF 1) 0xF 1 = updf r 0xF 1 := by
  funext j
  by_cases hj : j = 0xF <;> simp [updf, hj]

lemma runOps_snd :
    ∀ (ops : List (Nat × Nat)), ops.Nodup → ∀ (g : Nat → Nat → Nat) (r : Nat → Nat),
      (runOps ops g r).2 = if ops.any (fun p => g p.1 p.2 == 1) then updf r 0xF 1 else r := by
  intro ops
  induction ops with
  | nil => intro _ g r; rfl
  | cons p ops ih =>
    intro hnd g r
    obtain ⟨hp, hnd2⟩ := List.nodup_cons.mp hnd
    show (runOps ops (updg g p.1 p.2 (g p.1 p.2 ^^^ 0x1))
      (if g p.1 p.2 = 0x1 then updf r 0xF 1 else r)).2 = _
    rw [ih hnd2]
    have hgg : ∀ q ∈ ops,
        (updg g p.1 p.2 (g p.1 p.2 ^^^ 0x1) q.1 q.2 == 1) = (g q.1 q.2 == 1) := by
      intro q hq
      have hqp : ¬ (q.1 = p.1 ∧ q.2 = p.2) := by
        intro hc
        have hq2 : q = p := Prod.ext_iff.mpr ⟨hc.1, hc.2⟩
        exact hp (hq2 ▸ hq)
      simp [updg, hqp]
    rw [any_congr_mem ops _ _ hgg]
    by_cases hc : g p.1 p.2 = 0x1
    · rw [if_pos hc]
      have ha : (p :: ops).any (fun q => g q.1 q.2 == 1) = true := by
        simp [List.any_cons, hc]
      rw [ha, if_pos rfl]
      by_cases h2 : List.any ops (fun q => g q.1 q.2 == 1) = true
      · rw [if_pos h2, updf_idem]
      · rw [if_neg h2]
    · rw [if_neg hc]
      have ha : (p :: ops).any (fun q => g q.1 q.2 == 1) =
          ops.any (fun q => g q.1 q.2 == 1) := by
        simp [List.any_cons, hc]
      rw [ha]

lemma countCell_eq_zero {Y X : Nat} :
    ∀ {ops : List (Nat × Nat)}, (Y, X) ∉ ops → countCell Y X ops = 0 := by
  intro ops
  induction ops with
  | nil => intro _; rfl
  | cons p ops ih =>
    intro hm
    have h1 : (Y, X) ≠ p := fun e => hm (e ▸ List.mem_cons_self p ops)
    have h2 : (Y, X) ∉ ops := fun e => hm (List.mem_cons_of_mem p e)
    show (if Y = p.1 ∧ X = p.2 then 1 else 0) + countCell Y X ops = 0
    rw [ih h2, if_neg (fun hc => h1 (Prod.ext_iff.mpr ⟨hc.1, hc.2⟩))]

lemma countCell_eq_one {Y X : Nat} :
    ∀ {ops : List (Nat × Nat)}, ops.Nodup → (Y, X) ∈ ops → countCell Y X ops = 1 := by
  intro ops
  induction ops with
  | nil => intro _ hm; cases hm
  | cons p ops ih =>
    intro hnd hm
    obtain ⟨hp, hnd2⟩ := List.nodup_cons.mp hnd
    show (if Y = p.1 ∧ X = p.2 then 1 else 0) + countCell Y X ops = 1
    rcases List.mem_cons.mp hm with he | hm2
    · rw [if_pos ⟨congrArg Prod.fst he, congrArg Prod.snd he⟩,
        countCell_eq_zero (he ▸ hp)]
    · have hne : (Y, X) ≠ p := by
        intro he
        exact hp (he ▸ hm2)
      rw [if_neg (fun hc => hne (Prod.ext_iff.mpr ⟨hc.1, hc.2⟩)), ih hnd2 hm2]

lemma bitsOps_mem_fst (vx y row : Nat) (is : List Nat) :
    ∀ p ∈ bitsOps vx y row is, p.1 = y := by
  intro p hp
  obtain ⟨i, _, rfl⟩ := List.mem_map.mp hp
  rfl

lemma rowOps_nodup (vx y row : Nat) (hvx : vx < 256) : (rowOps vx y row).Nodup := by
  unfold rowOps bitsOps
  apply List.Nodup.map_on
  · intro i hi i2 hi2 he
    have h1 : i < 8 := List.mem_range.mp (List.mem_of_mem_filter hi)
    have h2 : i2 < 8 := List.mem_range.mp (List.mem_of_mem_filter hi2)
    have e1 : (vx + i) % SCREEN_WIDTH = vx + i := by
      apply Nat.mod_eq_of_lt
      simp only [SCREEN_WIDTH]
      omega
    have e2 : (vx + i2) % SCREEN_WIDTH = vx + i2 := by
      apply Nat.mod_eq_of_lt
      simp only [SCREEN_WIDTH]
      omega
    have hsnd := congrArg Prod.snd he
    simp only at hsnd
    rw [e1, e2] at hsnd
    omega
  · exact List.Nodup.filter _ (List.nodup_range 8)

lemma spriteOps_mem_fst (vx vy : Nat) :
    ∀ (l : List Nat) (j : Nat) (p : Nat × Nat), p ∈ spriteOps vx vy l j →
      ∃ jj, j ≤ jj ∧ jj < j + l.length ∧ p.1 = (vy + jj) % SCREEN_HEIGHT := by
  intro l
  induction l with
  | nil => intro j p hp; cases hp
  | cons row rest ih =>
    intro j p hp
    rcases List.mem_append.mp hp with h | h
    · refine ⟨j, Nat.le_refl j, ?_, bitsOps_mem_fst vx _ row (List.range 8) p h⟩
      simp only [List.length_cons]
      omega
    · obtain ⟨jj, hj1, hj2, hj3⟩ := ih (j + 1) p h
      refine ⟨jj, by omega, ?_, hj3⟩
      simp only [List.length_cons]
      omega

lemma spriteOps_nodup (vx vy : Nat) (hvx : vx < 256) (hvy : vy < 256) :
    ∀ (l : List Nat) (j : Nat), j + l.length ≤ 15 → (spriteOps vx vy l j).Nodup := by
  intro l
  induction l with
  | nil => intro j _; exact List.nodup_nil
  | cons row rest ih =>
    intro j hlen
    simp only [List.length_cons] at hlen
    apply List.Nodup.append (rowOps_nodup vx _ row hvx) (ih (j + 1) (by omega))
    intro p hp hp'
    have h1 : p.1 = (vy + j) % SCREEN_HEIGHT :=
      bitsOps_mem_fst vx _ row (List.range 8) p hp
    obtain ⟨jj, hj1, hj2, h2⟩ := spriteOps_mem_fst vx vy rest (j + 1) p hp'
    have e1 : (vy + j) % SCREEN_HEIGHT = vy + j := by
      apply Nat.mod_eq_of_lt
      simp only [SCREEN_HEIGHT]
      omega
    have e2 : (vy + jj) % SCREEN_HEIGHT = vy + jj := by
      apply Nat.mod_eq_of_lt
      simp only [SCREEN_HEIGHT]
      omega
    have hcontra : vy + j = vy + jj := by rw [← e1, ← e2, ← h1, ← h2]
    omega

/-- The toggle list of one execution of DXYN from a given state. -/
def dxynOps (em : Emulator) : List (Nat × Nat) :=
  spriteOps (get_register_vx em) (get_register_vy em)
    ((List.range (get_n em)).map (fun j => em.memory (em.index_register + j))) 0

/-- `_dxyn` in terms of the toggle-list replay. -/
lemma dxyn_eq (em : Emulator) (hbound : em.index_register + get_n em ≤ MEMORY_SIZE) :
    _dxyn em = some { em with
      gfx := (runOps (dxynOps em) em.gfx (updf em.registers 0xF 0)).1,
      registers := (runOps (dxynOps em) em.gfx (updf em.registers 0xF 0)).2 } := by
  unfold _dxyn
  rw [if_pos hbound]
  simp only [dxynRows_eq_runOps]
  rfl

/-! ### Stepping helpers -/

lemma emulator_cycle_eq (em e1 e2 : Emulator) (rnd : Nat)
    (hf : fetch_opcode em = some e1) (hp : process_opcode e1 rnd = some e2) :
    emulator_cycle em rnd = some (update_timer e2) := by
  unfold emulator_cycle
  rw [hf, Option.some_bind, hp, Option.map_some']

lemma process_2nnn (em : Emulator) (rnd : Nat) (h1 : em.opcode.first = 2) :
    process_opcode em rnd = _2nnn { em with program_counter := em.program_counter + 2 } := by
  rcases em with ⟨⟨f, s, t, u⟩, mem, regs, ix, pc, g, dt, snd, stk, sp, kp⟩
  dsimp only at h1
  subst h1
  rfl

lemma process_00ee (em : Emulator) (rnd : Nat) (h1 : em.opcode.first = 0)
    (h2 : em.opcode.second = 0) (h3 : em.opcode.third = 0xE) (h4 : em.opcode.fourth = 0xE) :
    process_opcode em rnd = _00ee { em with program_counter := em.program_counter + 2 } := by
  rcases em with ⟨⟨f, s, t, u⟩, mem, regs, ix, pc, g, dt, snd, stk, sp, kp⟩
  dsimp only at h1 h2 h3 h4
  subst h1 h2 h3 h4
  rfl

lemma _2nnn_eq (em : Emulator) (h2 : ¬ em.program_counter < 2) (hsp : em.stack_pointer < 16) :
    _2nnn em = some { em with
      stack := updf em.stack em.stack_pointer (em.program_counter - 2),
      stack_pointer := em.stack_pointer + 1,
      program_counter := get_nnn em } := by
  unfold _2nnn
  rw [if_neg h2, if_pos (show em.stack_pointer < STACK_SIZE from hsp)]

lemma _00ee_eq (em : Emulator) (h0 : ¬ em.stack_pointer = 0)
    (hsp : em.stack_pointer - 1 < 16)
    (hov : em.stack (em.stack_pointer - 1) + 2 < 65536) :
    _00ee em = some { em with
      stack_pointer := em.stack_pointer - 1,
      program_counter := em.stack (em.stack_pointer - 1) + 2 } := by
  unfold _00ee
  rw [if_neg h0]
  rw [if_pos (show em.stack_pointer - 1 < STACK_SIZE from hsp), if_pos hov]

/-- The program counter after two consecutive cycles, `none` if either
cycle panics. -/
def two_cycle_pc (em : Emulator) (r1 r2 : Nat) : Option Nat :=
  (emulator_cycle em r1).bind (fun p => (emulator_cycle p.1 r2).map (fun q => q.1.program_counter))

/-- C2 (amended): a 2NNN call at address A followed immediately by 00EE
leaves the program counter at A + 4 — two 2-byte slots past the call, the
address the engine would fetch next after any non-jump instruction at A
under its double per-cycle advance — not at A + 2 as the claim reads. -/
theorem chip8C2 (em : Emulator) (A n1 n2 n3 : Nat)
    (hpc : em.program_counter = A)
    (hsp : em.stack_pointer < 16)
    (hA : A + 1 < 4096)
    (hn1 : n1 < 16) (hn2 : n2 < 16) (hn3 : n3 < 16)
    (hT : n1 * 256 + n2 * 16 + n3 + 1 < 4096)
    (hmA : em.memory A = 0x20 + n1)
    (hmA1 : em.memory (A + 1) = n2 * 16 + n3)
    (hmN : em.memory (n1 * 256 + n2 * 16 + n3) = 0x00)
    (hmN1 : em.memory (n1 * 256 + n2 * 16 + n3 + 1) = 0xEE)
    (r1 r2 : Nat) :
    two_cycle_pc em r1 r2 = some (A + 4) := by
  subst hpc
  have hbA : em.memory em.program_counter < 256 := by rw [hmA]; omega
  have hbA1 : em.memory (em.program_counter + 1) < 256 := by rw [hmA1]; omega
  have hfetch := fetch_opcode_eq em hA hbA hbA1
  rw [hmA, hmA1] at hfetch
  have e1 : (0x20 + n1) / 16 = 2 := by omega
  have e2 : (0x20 + n1) % 16 = n1 := by omega
  have e3 : (n2 * 16 + n3) / 16 = n2 := by omega
  have e4 : (n2 * 16 + n3) % 16 = n3 := by omega
  rw [e1, e2, e3, e4] at hfetch
  have hproc : process_opcode { em with
      opcode := { first := 2, second := n1, third := n2, fourth := n3 },
      program_counter := em.program_counter + 2 } r1 = some { em with
      opcode := { first := 2, second := n1, third := n2, fourth := n3 },
      stack := updf em.stack em.stack_pointer (em.program_counter + 2),
      stack_pointer := em.stack_pointer + 1,
      program_counter := n1 * 256 + n2 * 16 + n3 } := by
    rw [process_2nnn _ r1 rfl]
    rw [_2nnn_eq _ (by dsimp only; omega) (by dsimp only; exact hsp)]
    have hh : em.program_counter + 2 + 2 - 2 = em.program_counter + 2 := by omega
    have hnnn : get_nnn { em with
        opcode := { first := 2, second := n1, third := n2, fourth := n3 },
        program_counter := em.program_counter + 2 + 2 } = n1 * 256 + n2 * 16 + n3 := by
      rw [get_nnn_eq _ (by dsimp only; omega) (by dsimp only; omega) (by dsimp only; omega)
        (by dsimp only; omega)]
    rw [hnnn]
    dsimp only
    rw [hh]
  have hcyc1 := emulator_cycle_eq em _ _ r1 hfetch hproc
  -- the state entering cycle 2, with the timers stepped
  have hT1pc : (update_timer { em with
      opcode := { first := 2, second := n1, third := n2, fourth := n3 },
      stack := updf em.stack em.stack_pointer (em.program_counter + 2),
      stack_pointer := em.stack_pointer + 1,
      program_counter := n1 * 256 + n2 * 16 + n3 }).1 = { em with
      opcode := { first := 2, second := n1, third := n2, fourth := n3 },
      stack := updf em.stack em.stack_pointer (em.program_counter + 2),
      stack_pointer := em.stack_pointer + 1,
      program_counter := n1 * 256 + n2 * 16 + n3,
      delay_timer := if 0 < em.delay_timer then em.delay_timer - 1 else em.delay_timer,
      sound_timer := if 0 < em.sound_timer then em.sound_timer - 1 else em.sound_timer } := rfl
  have hfetch2 := fetch_opcode_eq { em with
      opcode := { first := 2, second := n1, third := n2, fourth := n3 },
      stack := updf em.stack em.stack_pointer (em.program_counter + 2),
      stack_pointer := em.stack_pointer + 1,
      program_counter := n1 * 256 + n2 * 16 + n3,
      delay_timer := if 0 < em.delay_timer then em.delay_timer - 1 else em.delay_timer,
      sound_timer := if 0 < em.sound_timer then em.sound_timer - 1 else em.sound_timer }
    (by dsimp only; exact hT) (by dsimp only; rw [hmN]; omega) (by dsimp only; rw [hmN1]; omega)
  dsimp only at hfetch2
  rw [hmN, hmN1] at hfetch2
  have f1 : (0x00 : Nat) / 16 = 0 := by norm_num
  have f2 : (0x00 : Nat) % 16 = 0 := by norm_num
  have f3 : (0xEE : Nat) / 16 = 14 := by norm_num
  have f4 : (0xEE : Nat) % 16 = 14 := by norm_num
  rw [f1, f2, f3, f4] at hfetch2
  have hcyc2 := emulator_cycle_eq _ _ _ r2 hfetch2 (by
    rw [process_00ee _ r2 rfl rfl rfl rfl]
    rw [_00ee_eq _ (by dsimp only; omega) (by dsimp only; omega)
      (by dsimp only; rw [Nat.add_sub_cancel]; simp [updf]; omega)])
  unfold two_cycle_pc
  rw [hcyc1]
  simp only [Option.some_bind]
  rw [hT1pc, hcyc2, Option.map_some']
  dsimp only
  simp only [Nat.add_sub_cancel, updf, if_pos, update_timer]

/-! ### Claim theorems -/

/-- C2 counterexample state: a 2NNN call at 0x200 targeting 0x400, where a
00EE return sits. -/
def emC2 : Emulator :=
  let m := updf (updf (updf (updf Emulator.new.memory 0x200 0x24) 0x201 0x00) 0x400 0x00) 0x401 0xEE
  { Emulator.new with memory := m }

/-- C2 counterexample: after call-then-return from A = 0x200 the program
counter is 0x204 = A + 4, not A + 2 = 0x202 as the claim states. -/
theorem chip8C2_cex : two_cycle_pc emC2 0 0 = some 0x204 ∧ (0x204 : Nat) ≠ 0x202 :=
  ⟨rfl, by decide⟩

/-- C2 witness: the amended theorem applied at the concrete call site
A = 0x200, NNN = 0x400. -/
theorem chip8C2_witness : two_cycle_pc emC2 0 0 = some (0x200 + 4) :=
  chip8C2 emC2 0x200 4 0 0 rfl (by decide) (by decide) (by decide) (by decide) (by decide)
    (by decide) (by decide) (by decide) (by decide) (by decide) 0 0

/-- C1 state: 5XY0 (bytes 0x51 0x20) at 0x200 with V1 = V2 = 0. -/
def emC1eq : Emulator :=
  { Emulator.new with memory := updf (updf Emulator.new.memory 0x200 0x51) 0x201 0x20 }

/-- C1 state: the same instruction with V1 = 1 ≠ 2 = V2. -/
def emC1ne : Emulator :=
  { emC1eq with registers := fun i => i % 16 }

/-- C1 (code_bug evidence): executing 5XY0 with Vx = Vy leaves the program
counter at 0x204 (no extra skip), and with Vx ≠ Vy at 0x206 (skip taken) —
exactly inverted from the claimed "skip iff Vx == Vy". -/
theorem chip8C1 :
    (emulator_cycle emC1eq 0).map (fun p => p.1.program_counter) = some 0x204 ∧
    (emulator_cycle emC1ne 0).map (fun p => p.1.program_counter) = some 0x206 ∧
    emC1eq.registers 1 = emC1eq.registers 2 ∧
    emC1ne.registers 1 ≠ emC1ne.registers 2 :=
  ⟨rfl, rfl, rfl, by decide⟩

/-- C5 state: FX0A (bytes 0xF1 0x0A) at 0x200, no key pressed. -/
def emC5 : Emulator :=
  { Emulator.new with memory := updf (updf Emulator.new.memory 0x200 0xF1) 0x201 0x0A }

/-- C5 (code_bug evidence): one cycle of FX0A with keypad[Vx] not pressed
leaves the program counter at 0x202, not at the instruction's own address
0x200, so the next fetch reads the bytes at 0x202 rather than re-executing
the FX0A instruction. -/
theorem chip8C5 :
    (emulator_cycle emC5 0).map (fun p => p.1.program_counter) = some 0x202 ∧
    emC5.keypad (emC5.registers 1) = false ∧
    (0x202 : Nat) ≠ 0x200 :=
  ⟨rfl, rfl, by decide⟩

/-- C6 state: EX9E (bytes 0xE1 0x9E) at 0x200, every key pressed. -/
def emC6a : Emulator :=
  let m := updf (updf Emulator.new.memory 0x200 0xE1) 0x201 0x9E
  { Emulator.new with memory := m, keypad := fun _ => true }

/-- C6 state: EX9E at 0x200, no key pressed. -/
def emC6b : Emulator :=
  { Emulator.new with memory := updf (updf Emulator.new.memory 0x200 0xE1) 0x201 0x9E }

/-- C6 state: EXA1 (bytes 0xE1 0xA1) at 0x200, every key pressed. -/
def emC6c : Emulator :=
  let m := updf (updf Emulator.new.memory 0x200 0xE1) 0x201 0xA1
  { Emulator.new with memory := m, keypad := fun _ => true }

/-- C6 state: EXA1 at 0x200, no key pressed. -/
def emC6d : Emulator :=
  { Emulator.new with memory := updf (updf Emulator.new.memory 0x200 0xE1) 0x201 0xA1 }

/-- C6 (code_bug evidence): for both EX9E and EXA1 the pressed and the
not-pressed cycle end with the same program counter 0x206 — both branches of
the source advance by 2, so the skip condition has no effect at all. -/
theorem chip8C6 :
    (emulator_cycle emC6a 0).map (fun p => p.1.program_counter) = some 0x206 ∧
    (emulator_cycle emC6b 0).map (fun p => p.1.program_counter) = some 0x206 ∧
    (emulator_cycle emC6c 0).map (fun p => p.1.program_counter) = some 0x206 ∧
    (emulator_cycle emC6d 0).map (fun p => p.1.program_counter) = some 0x206 :=
  ⟨rfl, rfl, rfl, rfl⟩

/-- C9 state: 00EE (bytes 0x00 0xEE) at 0x200 on the fresh machine, whose
stack pointer is 0. -/
def emC9 : Emulator :=
  { Emulator.new with memory := updf (updf Emulator.new.memory 0x200 0x00) 0x201 0xEE }

/-- C9 (code_bug evidence): a 00EE at stack pointer 0 makes the cycle panic
(`usize` underflow on `stack_pointer -= 1`), modelled as `none` — there is no
structured reported error, the step simply dies. -/
theorem chip8C9 : emulator_cycle emC9 0 = none ∧ emC9.stack_pointer = 0 :=
  ⟨rfl, rfl⟩

set_option maxRecDepth 100000 in
lemma load_full_image_ok :
    (load_rom Emulator.new (List.replicate 3584 7)).map (fun e => e.memory 4095) = some 7 := by
  rfl

set_option maxRecDepth 100000 in
lemma load_oversized_image_panics :
    load_rom Emulator.new (List.replicate 3585 7) = none := by
  rfl

/-- C4 (code_bug evidence): a 3584-byte image loads and fills memory to the
last address 4095, but a 3585-byte image makes `load_rom` hit the memory
array's index panic (`none`) instead of returning a load error with the
machine untouched. -/
theorem chip8C4 :
    (load_rom Emulator.new (List.replicate 3584 7)).map (fun e => e.memory 4095) = some 7 ∧
    load_rom Emulator.new (List.replicate 3585 7) = none :=
  ⟨load_full_image_ok, load_oversized_image_panics⟩

/-- C3 (amended): for 8XY4, 8XY5 and 8XY7 with destination register index
x ≠ 0xF, VF receives exactly the carry/borrow flag (1 on 8XY4 overflow else
0; 0 on 8XY5/8XY7 borrow else 1) and the destination receives the wrapped
8-bit result.  With x = 0xF the wrapped result overwrites the flag (see the
counterexample). -/
theorem chip8C3 (em : Emulator) (hx : em.opcode.second ≠ 0xF)
    (ha : em.registers em.opcode.second < 256) (hb : em.registers em.opcode.third < 256) :
    ((_8xy4 em).registers 0xF =
      if 255 < em.registers em.opcode.second + em.registers em.opcode.third then 1 else 0) ∧
    ((_8xy4 em).registers em.opcode.second =
      (em.registers em.opcode.second + em.registers em.opcode.third) % 256) ∧
    ((_8xy5 em).registers 0xF =
      if em.registers em.opcode.second < em.registers em.opcode.third then 0 else 1) ∧
    ((_8xy5 em).registers em.opcode.second =
      (em.registers em.opcode.second + 256 - em.registers em.opcode.third) % 256) ∧
    ((_8xy7 em).registers 0xF =
      if em.registers em.opcode.third < em.registers em.opcode.second then 0 else 1) ∧
    ((_8xy7 em).registers em.opcode.second =
      (em.registers em.opcode.third + 256 - em.registers em.opcode.second) % 256) := by
  have hx' : (0xF : Nat) ≠ em.opcode.second := Ne.symm hx
  refine ⟨?_, ?_, ?_, ?_, ?_, ?_⟩ <;>
    simp [_8xy4, _8xy5, _8xy7, get_register_vx, get_register_vy, updf, hx', hx]

/-- C3 counterexample state: 8XY4 with x = 0xF (opcode 8F04), VF = 200,
V0 = 100. -/
def emC3 : Emulator :=
  { Emulator.new with
    opcode := { first := 8, second := 0xF, third := 0, fourth := 4 },
    registers := updf (updf Emulator.new.registers 0xF 200) 0 100 }

/-- C3 counterexample: with x = 0xF and 200 + 100 > 255 the claim demands
VF = 1, but the code leaves VF = 44, the wrapped sum. -/
theorem chip8C3_cex :
    (_8xy4 emC3).registers 0xF = 44 ∧
    255 < emC3.registers emC3.opcode.second + emC3.registers emC3.opcode.third ∧
    (44 : Nat) ≠ 1 :=
  ⟨rfl, by decide, by decide⟩

/-- C3 witness state: 8XY4 with x = 1, y = 2, V1 = 200, V2 = 100. -/
def emC3w : Emulator :=
  { Emulator.new with
    opcode := { first := 8, second := 1, third := 2, fourth := 4 },
    registers := updf (updf Emulator.new.registers 1 200) 2 100 }

/-- C3 witness: the amended theorem applied at x = 1, a = 200, b = 100. -/
theorem chip8C3_witness :
    emC3w.opcode.second ≠ 0xF ∧ (_8xy4 emC3w).registers 0xF = 1 :=
  ⟨by decide, ((chip8C3 emC3w (by decide) (by decide) (by decide)).1).trans (by decide)⟩

/-- C10: `process_key` writes exactly the keypad slot that the source's
match table assigns to a recognised symbol, setting it to the `Down`
boolean; every other keypad slot and every other field of the emulator is
unchanged, and an unrecognised symbol leaves the whole state unchanged. -/
theorem chip8C10 (em : Emulator) (key : Char) (st : KeyState) :
    (∀ k, keypad_index key = some k →
      (process_key em key st).keypad k = key_value_of st ∧
      (∀ j, j ≠ k → (process_key em key st).keypad j = em.keypad j) ∧
      (process_key em key st).memory = em.memory ∧
      (process_key em key st).registers = em.registers ∧
      (process_key em key st).index_register = em.index_register ∧
      (process_key em key st).program_counter = em.program_counter ∧
      (process_key em key st).stack = em.stack ∧
      (process_key em key st).stack_pointer = em.stack_pointer ∧
      (process_key em key st).delay_timer = em.delay_timer ∧
      (process_key em key st).sound_timer = em.sound_timer ∧
      (process_key em key st).gfx = em.gfx ∧
      (process_key em key st).opcode = em.opcode) ∧
    (keypad_index key = none → process_key em key st = em) := by
  constructor
  · intro k hk
    unfold process_key
    unfold keypad_index at hk
    split at hk <;> cases hk <;>
      exact ⟨rfl, fun j hj => by simp [updf, hj], rfl, rfl, rfl, rfl, rfl, rfl, rfl, rfl,
        rfl, rfl⟩
  · intro hnone
    unfold process_key
    unfold keypad_index at hnone
    split at hnone <;> try cases hnone
    rfl

/-- C10 witness: pressing the symbol q sets keypad slot 4. -/
theorem chip8C10_witness :
    (process_key Emulator.new 'q' KeyState.Down).keypad 4 = true ∧
    (process_key Emulator.new 'Q' KeyState.Down) = Emulator.new :=
  ⟨((chip8C10 Emulator.new 'q' KeyState.Down).1 4 rfl).1,
   (chip8C10 Emulator.new 'Q' KeyState.Down).2 rfl⟩

/-! ### Timer effects of the dispatch (claim C8) -/

lemma timers_0nnn (e : Emulator) :
    (_0nnn e).delay_timer = e.delay_timer ∧ (_0nnn e).sound_timer = e.sound_timer :=
  ⟨rfl, rfl⟩

lemma timers_00e0 (e : Emulator) :
    (_00e0 e).delay_timer = e.delay_timer ∧ (_00e0 e).sound_timer = e.sound_timer :=
  ⟨rfl, rfl⟩

lemma timers_1nnn (e : Emulator) :
    (_1nnn e).delay_timer = e.delay_timer ∧ (_1nnn e).sound_timer = e.sound_timer :=
  ⟨rfl, rfl⟩

lemma timers_3xnn (e : Emulator) :
    (_3xnn e).delay_timer = e.delay_timer ∧ (_3xnn e).sound_timer = e.sound_timer := by
  unfold _3xnn skip_next_instruction
  split_ifs <;> exact ⟨rfl, rfl⟩

lemma timers_4xnn (e : Emulator) :
    (_4xnn e).delay_timer = e.delay_timer ∧ (_4xnn e).sound_timer = e.sound_timer := by
  unfold _4xnn skip_next_instruction
  split_ifs <;> exact ⟨rfl, rfl⟩

lemma timers_5xy0 (e : Emulator) :
    (_5xy0 e).delay_timer = e.delay_timer ∧ (_5xy0 e).sound_timer = e.sound_timer := by
  unfold _5xy0 skip_next_instruction
  split_ifs <;> exact ⟨rfl, rfl⟩

lemma timers_6xnn (e : Emulator) :
    (_6xnn e).delay_timer = e.delay_timer ∧ (_6xnn e).sound_timer = e.sound_timer :=
  ⟨rfl, rfl⟩

lemma timers_8xy0 (e : Emulator) :
    (_8xy0 e).delay_timer = e.delay_timer ∧ (_8xy0 e).sound_timer = e.sound_timer :=
  ⟨rfl, rfl⟩

lemma timers_8xy1 (e : Emulator) :
    (_8xy1 e).delay_timer = e.delay_timer ∧ (_8xy1 e).sound_timer = e.sound_timer :=
  ⟨rfl, rfl⟩

lemma timers_8xy2 (e : Emulator) :
    (_8xy2 e).delay_timer = e.delay_timer ∧ (_8xy2 e).sound_timer = e.sound_timer :=
  ⟨rfl, rfl⟩

lemma timers_8xy3 (e : Emulator) :
    (_8xy3 e).delay_timer = e.delay_timer ∧ (_8xy3 e).sound_timer = e.sound_timer :=
  ⟨rfl, rfl⟩

lemma timers_8xy4 (e : Emulator) :
    (_8xy4 e).delay_timer = e.delay_timer ∧ (_8xy4 e).sound_timer = e.sound_timer :=
  ⟨rfl, rfl⟩

lemma timers_8xy5 (e : Emulator) :
    (_8xy5 e).delay_timer = e.delay_timer ∧ (_8xy5 e).sound_timer = e.sound_timer :=
  ⟨rfl, rfl⟩

lemma timers_8xy6 (e : Emulator) :
    (_8xy6 e).delay_timer = e.delay_timer ∧ (_8xy6 e).sound_timer = e.sound_timer :=
  ⟨rfl, rfl⟩

lemma timers_8xy7 (e : Emulator) :
    (_8xy7 e).delay_timer = e.delay_timer ∧ (_8xy7 e).sound_timer = e.sound_timer :=
  ⟨rfl, rfl⟩

lemma timers_8xye (e : Emulator) :
    (_8xye e).delay_timer = e.delay_timer ∧ (_8xye e).sound_timer = e.sound_timer :=
  ⟨rfl, rfl⟩

lemma timers_9xy0 (e : Emulator) :
    (_9xy0 e).delay_timer = e.delay_timer ∧ (_9xy0 e).sound_timer = e.sound_timer := by
  unfold _9xy0 skip_next_instruction
  split_ifs <;> exact ⟨rfl, rfl⟩

lemma timers_annn (e : Emulator) :
    (_annn e).delay_timer = e.delay_timer ∧ (_annn e).sound_timer = e.sound_timer :=
  ⟨rfl, rfl⟩

lemma timers_bnnn (e : Emulator) :
    (_bnnn e).delay_timer = e.delay_timer ∧ (_bnnn e).sound_timer = e.sound_timer :=
  ⟨rfl, rfl⟩

lemma timers_cxnn (e : Emulator) (rnd : Nat) :
    (_cxnn e rnd).delay_timer = e.delay_timer ∧ (_cxnn e rnd).sound_timer = e.sound_timer :=
  ⟨rfl, rfl⟩

lemma timers_fx07 (e : Emulator) :
    (_fx07 e).delay_timer = e.delay_timer ∧ (_fx07 e).sound_timer = e.sound_timer :=
  ⟨rfl, rfl⟩

lemma timers_fx29 (e : Emulator) :
    (_fx29 e).delay_timer = e.delay_timer ∧ (_fx29 e).sound_timer = e.sound_timer :=
  ⟨rfl, rfl⟩

lemma timers_00ee (e t : Emulator) (h : _00ee e = some t) :
    t.delay_timer = e.delay_timer ∧ t.sound_timer = e.sound_timer := by
  simp only [_00ee] at h
  split_ifs at h <;> cases h <;> exact ⟨rfl, rfl⟩

lemma timers_2nnn (e t : Emulator) (h : _2nnn e = some t) :
    t.delay_timer = e.delay_timer ∧ t.sound_timer = e.sound_timer := by
  simp only [_2nnn] at h
  split_ifs at h <;> cases h <;> exact ⟨rfl, rfl⟩

lemma timers_7xnn (e t : Emulator) (h : _7xnn e = some t) :
    t.delay_timer = e.delay_timer ∧ t.sound_timer = e.sound_timer := by
  simp only [_7xnn] at h
  split_ifs at h <;> cases h <;> exact ⟨rfl, rfl⟩

lemma timers_dxyn (e t : Emulator) (h : _dxyn e = some t) :
    t.delay_timer = e.delay_timer ∧ t.sound_timer = e.sound_timer := by
  simp only [_dxyn] at h
  split_ifs at h <;> cases h <;> exact ⟨rfl, rfl⟩

lemma timers_ex9e (e t : Emulator) (h : _ex9e e = some t) :
    t.delay_timer = e.delay_timer ∧ t.sound_timer = e.sound_timer := by
  simp only [_ex9e, skip_next_instruction] at h
  split_ifs at h <;> cases h <;> exact ⟨rfl, rfl⟩

lemma timers_exa1 (e t : Emulator) (h : _exa1 e = some t) :
    t.delay_timer = e.delay_timer ∧ t.sound_timer = e.sound_timer := by
  simp only [_exa1, skip_next_instruction] at h
  split_ifs at h <;> cases h <;> exact ⟨rfl, rfl⟩

lemma timers_fx0a (e t : Emulator) (h : _fx0a e = some t) :
    t.delay_timer = e.delay_timer ∧ t.sound_timer = e.sound_timer := by
  simp only [_fx0a] at h
  split_ifs at h <;> cases h <;> exact ⟨rfl, rfl⟩

lemma timers_fx1e (e t : Emulator) (h : _fx1e e = some t) :
    t.delay_timer = e.delay_timer ∧ t.sound_timer = e.sound_timer := by
  simp only [_fx1e] at h
  split_ifs at h <;> cases h <;> exact ⟨rfl, rfl⟩

lemma timers_fx33 (e t : Emulator) (h : _fx33 e = some t) :
    t.delay_timer = e.delay_timer ∧ t.sound_timer = e.sound_timer := by
  simp only [_fx33] at h
  split_ifs at h <;> cases h <;> exact ⟨rfl, rfl⟩

lemma timers_fx55 (e t : Emulator) (h : _fx55 e = some t) :
    t.delay_timer = e.delay_timer ∧ t.sound_timer = e.sound_timer := by
  simp only [_fx55] at h
  split_ifs at h <;> cases h <;> exact ⟨rfl, rfl⟩

lemma timers_fx65 (e t : Emulator) (h : _fx65 e = some t) :
    t.delay_timer = e.delay_timer ∧ t.sound_timer = e.sound_timer := by
  simp only [_fx65] at h
  split_ifs at h <;> cases h <;> exact ⟨rfl, rfl⟩

set_option maxHeartbeats 1000000 in
lemma process_preserves_timers (em : Emulator) (rnd : Nat) (t : Emulator)
    (h15 : ¬ (em.opcode.first = 0xF ∧ em.opcode.third = 1 ∧ em.opcode.fourth = 5))
    (h18 : ¬ (em.opcode.first = 0xF ∧ em.opcode.third = 1 ∧ em.opcode.fourth = 8))
    (hp : process_opcode em rnd = some t) :
    t.delay_timer = em.delay_timer ∧ t.sound_timer = em.sound_timer := by
  unfold process_opcode at hp
  dsimp only at hp
  split at hp
  case h_1 =>
    split at hp
    case h_1 => cases hp; exact timers_00e0 _
    case h_2 => have hh := timers_00ee _ _ hp; exact hh
    case h_3 => cases hp; exact timers_0nnn _
  case h_2 => cases hp; exact timers_1nnn _
  case h_3 => have hh := timers_2nnn _ _ hp; exact hh
  case h_4 => cases hp; exact timers_3xnn _
  case h_5 => cases hp; exact timers_4xnn _
  case h_6 =>
    split at hp
    case h_1 => cases hp; exact timers_5xy0 _
    case h_2 => cases hp; exact ⟨rfl, rfl⟩
  case h_7 => cases hp; exact timers_6xnn _
  case h_8 => have hh := timers_7xnn _ _ hp; exact hh
  case h_9 =>
    split at hp
    case h_1 => cases hp; exact timers_8xy0 _
    case h_2 => cases hp; exact timers_8xy1 _
    case h_3 => cases hp; exact timers_8xy2 _
    case h_4 => cases hp; exact timers_8xy3 _
    case h_5 => cases hp; exact timers_8xy4 _
    case h_6 => cases hp; exact timers_8xy5 _
    case h_7 => cases hp; exact timers_8xy6 _
    case h_8 => cases hp; exact timers_8xy7 _
    case h_9 => cases hp; exact timers_8xye _
    case h_10 => cases hp; exact ⟨rfl, rfl⟩
  case h_10 =>
    split at hp
    case h_1 => cases hp; exact timers_9xy0 _
    case h_2 => cases hp; exact ⟨rfl, rfl⟩
  case h_11 => cases hp; exact timers_annn _
  case h_12 => cases hp; exact timers_bnnn _
  case h_13 => cases hp; exact timers_cxnn _ rnd
  case h_14 => have hh := timers_dxyn _ _ hp; exact hh
  case h_15 =>
    split at hp
    case h_1 => have hh := timers_ex9e _ _ hp; exact hh
    case h_2 => have hh := timers_exa1 _ _ hp; exact hh
    case h_3 => cases hp; exact ⟨rfl, rfl⟩
  case h_16 =>
    split at hp
    case h_1 => cases hp; exact timers_fx07 _
    case h_2 => have hh := timers_fx0a _ _ hp; exact hh
    case h_3 => exact absurd ⟨by assumption, by assumption, by assumption⟩ h15
    case h_4 => exact absurd ⟨by assumption, by assumption, by assumption⟩ h18
    case h_5 => have hh := timers_fx1e _ _ hp; exact hh
    case h_6 => cases hp; exact timers_fx29 _
    case h_7 => have hh := timers_fx33 _ _ hp; exact hh
    case h_8 => have hh := timers_fx55 _ _ hp; exact hh
    case h_9 => have hh := timers_fx65 _ _ hp; exact hh
    case h_10 => cases hp; exact ⟨rfl, rfl⟩
  case h_17 => cases hp; exact ⟨rfl, rfl⟩

/-- C8: for any cycle whose fetched instruction is not FX15 or FX18 (the
only timer writers), a sound timer of 1 drops to 0 with exactly one beep, a
sound timer of 0 stays 0 with no beep, and the delay timer decrements when
nonzero and stays 0 when zero — neither timer ever wraps. -/
theorem chip8C8 (em t : Emulator) (rnd : Nat) (beep : Bool)
    (ha : em.memory em.program_counter < 256)
    (hb : em.memory (em.program_counter + 1) < 256)
    (h15 : ¬ (em.memory em.program_counter / 16 = 0xF ∧
      em.memory (em.program_counter + 1) / 16 = 1 ∧
      em.memory (em.program_counter + 1) % 16 = 5))
    (h18 : ¬ (em.memory em.program_counter / 16 = 0xF ∧
      em.memory (em.program_counter + 1) / 16 = 1 ∧
      em.memory (em.program_counter + 1) % 16 = 8))
    (hc : emulator_cycle em rnd = some (t, beep)) :
    (em.sound_timer = 1 → t.sound_timer = 0 ∧ beep = true) ∧
    (em.sound_timer = 0 → t.sound_timer = 0 ∧ beep = false) ∧
    (0 < em.delay_timer → t.delay_timer = em.delay_timer - 1) ∧
    (em.delay_timer = 0 → t.delay_timer = 0) := by
  unfold emulator_cycle at hc
  cases hf : fetch_opcode em with
  | none => rw [hf] at hc; cases hc
  | some e1 =>
    rw [hf, Option.some_bind] at hc
    cases hp : process_opcode e1 rnd with
    | none => rw [hp] at hc; cases hc
    | some e2 =>
      rw [hp, Option.map_some'] at hc
      have hpcb : em.program_counter + 1 < 4096 := by
        by_contra hno
        unfold fetch_opcode at hf
        rw [if_neg (show ¬ em.program_counter + 1 < MEMORY_SIZE from hno)] at hf
        cases hf
      rw [fetch_opcode_eq em hpcb ha hb] at hf
      cases hf
      have hpres := process_preserves_timers _ rnd e2
        (by dsimp only; exact h15) (by dsimp only; exact h18) hp
      have hd : e2.delay_timer = em.delay_timer := hpres.1
      have hs2 : e2.sound_timer = em.sound_timer := hpres.2
      have hpair : update_timer e2 = (t, beep) := Option.some.inj hc
      have ht : t = (update_timer e2).1 := by rw [hpair]
      have hbp : beep = (update_timer e2).2 := by rw [hpair]
      subst ht hbp
      unfold update_timer
      dsimp only
      rw [hd, hs2]
      refine ⟨?_, ?_, ?_, ?_⟩
      · intro h1
        rw [h1]
        exact ⟨rfl, rfl⟩
      · intro h0
        rw [h0]
        exact ⟨rfl, rfl⟩
      · intro hdp
        rw [if_pos hdp]
      · intro hd0
        rw [hd0]
        rfl

/-- C8 witness state: the fresh machine (instruction 0000 at 0x200) with
sound timer 1 and delay timer 5. -/
def emC8 : Emulator :=
  { Emulator.new with sound_timer := 1, delay_timer := 5 }

/-- The machine and beep flag produced by one cycle from the C8 witness
state. -/
def emC8t : Emulator :=
  ((emulator_cycle emC8 0).getD (Emulator.new, false)).1

/-- The beep flag produced by one cycle from the C8 witness state. -/
def emC8beep : Bool :=
  ((emulator_cycle emC8 0).getD (Emulator.new, false)).2

/-- C8 witness: the theorem applied to the concrete state with sound timer
1 and delay timer 5. -/
theorem chip8C8_witness :
    (emC8t.sound_timer = 0 ∧ emC8beep = true) ∧ emC8t.delay_timer = 4 :=
  ⟨(chip8C8 emC8 emC8t 0 emC8beep (by decide) (by decide) (by decide) (by decide) rfl).1 rfl,
   ((chip8C8 emC8 emC8t 0 emC8beep (by decide) (by decide) (by decide) (by decide)
     rfl).2.2.1 (by decide)).trans (by decide)⟩

/-! ### The double-draw property (claim C7) -/

lemma xor_one_eq_one_iff (v : Nat) : v ^^^ 1 = 1 ↔ v = 0 := by
  constructor
  · intro h
    have h2 := congrArg (fun w => w ^^^ 1) h
    simp only at h2
    rwa [Nat.xor_assoc, Nat.xor_self, Nat.xor_zero] at h2
  · rintro rfl
    rfl

lemma dxynOps_congr (a b : Emulator)
    (hvx : get_register_vx a = get_register_vx b)
    (hvy : get_register_vy a = get_register_vy b)
    (hn : get_n a = get_n b)
    (hm : a.memory = b.memory)
    (hi : a.index_register = b.index_register) :
    dxynOps a = dxynOps b := by
  unfold dxynOps
  rw [hvx, hvy, hn, hm, hi]

/-- C7 (amended): for DXYN with coordinate registers x and y different from
0xF and 8-bit register values, executing the draw twice restores every
framebuffer cell to its pre-draw value, the second draw sets VF to 1
exactly when the first draw turned some cell from 0 to 1, and each draw
leaves the index register unchanged.  When x = 0xF or y = 0xF the first
draw's flag update can move the second draw, defeating the restoration
(see the counterexample). -/
theorem chip8C7 (em em1 em2 : Emulator)
    (hx : em.opcode.second ≠ 0xF) (hy : em.opcode.third ≠ 0xF)
    (hvx : em.registers em.opcode.second < 256)
    (hvy : em.registers em.opcode.third < 256)
    (h1 : _dxyn em = some em1) (h2 : _dxyn em1 = some em2) :
    (∀ Y X, em2.gfx Y X = em.gfx Y X) ∧
    (em2.registers 0xF = 1 ↔
      ∃ p ∈ dxynOps em, em.gfx p.1 p.2 = 0 ∧ em1.gfx p.1 p.2 = 1) ∧
    em1.index_register = em.index_register ∧
    em2.index_register = em.index_register := by
  have hbound : em.index_register + get_n em ≤ MEMORY_SIZE := by
    by_contra hno
    simp only [_dxyn] at h1
    rw [if_neg hno] at h1
    cases h1
  have he1 := Option.some.inj ((dxyn_eq em hbound).symm.trans h1)
  subst he1
  have hnd : (dxynOps em).Nodup := by
    unfold dxynOps
    apply spriteOps_nodup _ _ hvx hvy
    have hlen := get_n_lt em
    simp only [List.length_map, List.length_range]
    omega
  have hRx : (runOps (dxynOps em) em.gfx (updf em.registers 0xF 0)).2 em.opcode.second =
      em.registers em.opcode.second := by
    rw [runOps_snd_apply_ne _ _ _ _ hx]
    simp [updf, hx]
  have hRy : (runOps (dxynOps em) em.gfx (updf em.registers 0xF 0)).2 em.opcode.third =
      em.registers em.opcode.third := by
    rw [runOps_snd_apply_ne _ _ _ _ hy]
    simp [updf, hy]
  have hops : dxynOps { em with
      gfx := (runOps (dxynOps em) em.gfx (updf em.registers 0xF 0)).1,
      registers := (runOps (dxynOps em) em.gfx (updf em.registers 0xF 0)).2 } = dxynOps em :=
    dxynOps_congr _ _ hRx hRy rfl rfl rfl
  have he2 := Option.some.inj ((dxyn_eq { em with
      gfx := (runOps (dxynOps em) em.gfx (updf em.registers 0xF 0)).1,
      registers := (runOps (dxynOps em) em.gfx (updf em.registers 0xF 0)).2 }
    (by exact hbound)).symm.trans h2)
  subst he2
  have hmem : ∀ p ∈ dxynOps em,
      (runOps (dxynOps em) em.gfx (updf em.registers 0xF 0)).1 p.1 p.2 =
        em.gfx p.1 p.2 ^^^ 1 := by
    intro p hpmem
    rw [runOps_fst_apply]
    rw [countCell_eq_one hnd hpmem]
  refine ⟨?_, ?_, rfl, rfl⟩
  · intro Y X
    dsimp only
    rw [hops]
    simp only [runOps_fst_apply]
    rw [Nat.xor_assoc, Nat.xor_self, Nat.xor_zero]
  · dsimp only
    rw [hops]
    rw [runOps_snd _ hnd]
    split_ifs with hany
    · obtain ⟨p, hpmem, hpf⟩ := List.any_eq_true.mp hany
      have hp1 : (runOps (dxynOps em) em.gfx (updf em.registers 0xF 0)).1 p.1 p.2 = 1 := by
        simpa using hpf
      refine iff_of_true (by simp [updf]) ⟨p, hpmem, ?_, hp1⟩
      have hm1 := hmem p hpmem
      rw [hm1] at hp1
      exact (xor_one_eq_one_iff _).mp hp1
    · refine iff_of_false ?_ ?_
      · simp [updf]
      · rintro ⟨p, hpmem, hp0, hp1⟩
        exact hany (List.any_eq_true.mpr ⟨p, hpmem, by simpa using hp1⟩)

/-- C7 counterexample state: DXYN with x = 0xF (opcode DF01), so the flag
register itself supplies the x coordinate; VF = 1, one-byte sprite 0x80 at
I = 0x300, empty framebuffer. -/
def emC7x : Emulator :=
  { Emulator.new with
    opcode := { first := 0xD, second := 0xF, third := 0, fourth := 1 },
    registers := updf Emulator.new.registers 0xF 1,
    memory := updf Emulator.new.memory 0x300 0x80,
    index_register := 0x300 }

/-- C7 counterexample: drawing twice with x = 0xF does not restore the
framebuffer — the first draw resets VF, so the second draw lands at a
different x coordinate; cell (0,1) was 0 and is still lit after the second
draw. -/
theorem chip8C7_cex :
    ((_dxyn emC7x).bind _dxyn).map (fun e => e.gfx 0 1) = some 1 ∧ emC7x.gfx 0 1 = 0 :=
  ⟨rfl, rfl⟩

/-- C7 witness state: DXYN with x = 1, y = 2 (opcode D121), V1 = V2 = 0,
one-byte sprite 0x80 at I = 0x300. -/
def emC7w : Emulator :=
  { Emulator.new with
    opcode := { first := 0xD, second := 1, third := 2, fourth := 1 },
    memory := updf Emulator.new.memory 0x300 0x80,
    index_register := 0x300 }

/-- The state after the first witness draw. -/
def emC7w1 : Emulator :=
  (_dxyn emC7w).getD Emulator.new

/-- The state after the second witness draw. -/
def emC7w2 : Emulator :=
  (_dxyn emC7w1).getD Emulator.new

/-- C7 witness: the amended theorem applied to the concrete double draw;
cell (0,0) — the one the sprite toggles — is restored and the index
register is unchanged. -/
theorem chip8C7_witness :
    emC7w2.gfx 0 0 = emC7w.gfx 0 0 ∧ emC7w2.index_register = emC7w.index_register :=
  ⟨(chip8C7 emC7w emC7w1 emC7w2 (by decide) (by decide) (by decide) (by decide) rfl rfl).1 0 0,
   (chip8C7 emC7w emC7w1 emC7w2 (by decide) (by decide) (by decide) (by decide) rfl rfl).2.2.2⟩
